import Mathlib

/-!
Shallow embedding of the Polymarket BTC 15-minute HFT bot
(`execution.py`, `strategy.py`, `scanner.py`, `binance_feed.py`,
`order_book_feed.py`) and proofs of the spec claims about it.

Numbers are modelled as rationals (`ℚ`); Python's `round(x, n)`
(round-half-to-even) is modelled by `pyRound`.  Wall-clock UTC dates are
passed explicitly as a `ℕ` day ordinal.  External collaborators (the
exchange client, the network) are modelled by explicit parameters
describing what they return or whether they raise.
-/

/-- Round-half-to-even of a rational to an integer, as Python's `round`
does on the exact value. -/
def roundHalfEven (q : ℚ) : ℤ :=
  let f : ℤ := ⌊q⌋
  let r : ℚ := q - f
  if r < 1/2 then f
  else if 1/2 < r then f + 1
  else if f % 2 = 0 then f else f + 1

/-- Python's `round(x, n)`: round-half-to-even at `n` decimal digits. -/
def pyRound (q : ℚ) (n : ℕ) : ℚ :=
  (roundHalfEven (q * 10 ^ n) : ℚ) / 10 ^ n

namespace Execution

/-- Constructor arguments of `OrderManager` (`execution.py`, lines 29-43):
position size, circuit-breaker daily loss limit, the two inventory maxima
and the mid-price drift threshold. -/
structure OMConfig where
  position_size_usd : ℚ
  circuit_breaker_loss_usd : ℚ
  max_inventory_yes : ℚ
  max_inventory_no : ℚ
  mid_drift_threshold : ℚ
  deriving DecidableEq

/-- Mutable fields of `OrderManager` (`execution.py`, lines 44-52). -/
structure OMState where
  session_pnl : ℚ
  daily_pnl : ℚ
  daily_reset_date : Option ℕ
  circuit_breaker_tripped : Bool
  inventory_yes : ℚ
  inventory_no : ℚ
  last_mid_price : Option ℚ
  active_yes_bid : Option (ℚ × ℚ)
  active_no_bid : Option (ℚ × ℚ)
  deriving DecidableEq

/-- State set up by `OrderManager.__init__`. -/
def OMState.init : OMState :=
  { session_pnl := 0
    daily_pnl := 0
    daily_reset_date := none
    circuit_breaker_tripped := false
    inventory_yes := 0
    inventory_no := 0
    last_mid_price := none
    active_yes_bid := none
    active_no_bid := none }

/-- `OrderManager._reset_daily_if_needed` (`execution.py`, lines 54-58):
zero the daily accumulator and stamp today unless already stamped today. -/
def reset_daily_if_needed (today : ℕ) (s : OMState) : OMState :=
  if s.daily_reset_date = none ∨ s.daily_reset_date ≠ some today then
    { s with daily_pnl := 0, daily_reset_date := some today }
  else s

/-- `OrderManager.record_pnl` (`execution.py`, lines 60-66).  `today` is the
current UTC date read by `_reset_daily_if_needed`. -/
def record_pnl (cfg : OMConfig) (today : ℕ) (pnl : ℚ) (s : OMState) : OMState :=
  let s1 := { s with session_pnl := s.session_pnl + pnl }
  let s2 := reset_daily_if_needed today s1
  let s3 := { s2 with daily_pnl := s2.daily_pnl + pnl }
  if s3.daily_pnl ≤ -cfg.circuit_breaker_loss_usd then
    { s3 with circuit_breaker_tripped := true }
  else s3

/-- `OrderManager.record_fill` (`execution.py`, lines 68-73). -/
def record_fill (outcome : String) (size _price : ℚ) (s : OMState) : OMState :=
  if outcome = "Yes" then { s with inventory_yes := s.inventory_yes + size }
  else { s with inventory_no := s.inventory_no + size }

/-- The `daily_pnl` property (`execution.py`, lines 83-86): runs the daily
reset, then returns the accumulator.  Returns the updated state and the
read value. -/
def daily_pnl_read (today : ℕ) (s : OMState) : OMState × ℚ :=
  let s1 := reset_daily_if_needed today s
  (s1, s1.daily_pnl)

/-- `OrderManager.should_requote` (`execution.py`, lines 104-108); pure. -/
def should_requote (cfg : OMConfig) (current_mid : ℚ) (s : OMState) : Bool :=
  match s.last_mid_price with
  | none => true
  | some last => |current_mid - last| > cfg.mid_drift_threshold

/-- `OrderManager.set_last_mid` (`execution.py`, lines 110-111). -/
def set_last_mid (mid : ℚ) (s : OMState) : OMState :=
  { s with last_mid_price := some mid }

/-- `OrderManager.can_quote_yes` (`execution.py`, lines 113-114); pure. -/
def can_quote_yes (cfg : OMConfig) (s : OMState) : Bool :=
  s.inventory_yes < cfg.max_inventory_yes

/-- `OrderManager.can_quote_no` (`execution.py`, lines 116-117); pure. -/
def can_quote_no (cfg : OMConfig) (s : OMState) : Bool :=
  s.inventory_no < cfg.max_inventory_no

/-- `OrderManager.cancel_all_orders` (`execution.py`, lines 119-129).
`resp` models the bulk-cancel collaborator `client.cancel_all()`:
`Except.ok canceled` is a normal return carrying the list of canceled
order ids; `Except.error ()` is a raised exception (caught and logged by
the method).  In the source the two lines clearing the tracked bids sit
inside the `try` block after the collaborator call, so they run only when
the collaborator returns normally. -/
def cancel_all_orders (resp : Except Unit (List String)) (s : OMState) : OMState :=
  match resp with
  | .ok _ => { s with active_yes_bid := none, active_no_bid := none }
  | .error _ => s

/-- `OrderManager.place_post_only_limit_order` (`execution.py`,
lines 131-154).  `submit` models the order construction / submission
collaborator calls (`create_order` + `post_order`): `Except.ok ()` is a
confirmed submission, `Except.error ()` a raised exception (caught).
Returns (new state, returned bool, whether the exchange client was
contacted at all). -/
def place_post_only_limit_order (submit : Except Unit Unit)
    (_token_id _side : String) (price size : ℚ) (outcome : String)
    (s : OMState) : OMState × Bool × Bool :=
  if s.circuit_breaker_tripped then (s, false, false)
  else
    match submit with
    | .error _ => (s, false, true)
    | .ok _ =>
      let s1 :=
        if outcome = "Yes" then { s with active_yes_bid := some (price, size) }
        else if outcome = "No" then { s with active_no_bid := some (price, size) }
        else s
      (s1, true, true)

/-- `OrderManager.clear_active_bid` (`execution.py`, lines 156-160). -/
def clear_active_bid (outcome : String) (s : OMState) : OMState :=
  if outcome = "Yes" then { s with active_yes_bid := none }
  else if outcome = "No" then { s with active_no_bid := none }
  else s

instance {ε α : Type} [DecidableEq ε] [DecidableEq α] : DecidableEq (Except ε α) := fun x y =>
  match x, y with
  | .ok a, .ok b => if h : a = b then .isTrue (by rw [h]) else .isFalse (by simp [h])
  | .error a, .error b => if h : a = b then .isTrue (by rw [h]) else .isFalse (by simp [h])
  | .ok _, .error _ => .isFalse (by simp)
  | .error _, .ok _ => .isFalse (by simp)

/-- One `OrderManager` operation, with the external-world inputs it reads
(the current UTC date, collaborator behaviour).  `readAccessor` stands for
the pure accessors (`session_pnl`, `inventory_yes`, `inventory_no`,
`active_yes_bid`, `active_no_bid`, `circuit_breaker_tripped`) as well as
the pure predicates; `dailyPnlRead` is the one accessor with a state
effect (it runs the daily reset). -/
inductive Op where
  | recordPnl (today : ℕ) (pnl : ℚ)
  | recordFill (outcome : String) (size price : ℚ)
  | placeOrder (submit : Except Unit Unit) (token_id side : String)
      (price size : ℚ) (outcome : String)
  | cancelAll (resp : Except Unit (List String))
  | shouldRequote (mid : ℚ)
  | setLastMid (mid : ℚ)
  | clearActiveBid (outcome : String)
  | dailyPnlRead (today : ℕ)
  | readAccessor
  deriving DecidableEq

/-- State effect of one operation. -/
def step (cfg : OMConfig) (s : OMState) : Op → OMState
  | .recordPnl today pnl => record_pnl cfg today pnl s
  | .recordFill outcome size price => record_fill outcome size price s
  | .placeOrder submit token_id side price size outcome =>
      (place_post_only_limit_order submit token_id side price size outcome s).1
  | .cancelAll resp => cancel_all_orders resp s
  | .shouldRequote _ => s
  | .setLastMid mid => set_last_mid mid s
  | .clearActiveBid outcome => clear_active_bid outcome s
  | .dailyPnlRead today => (daily_pnl_read today s).1
  | .readAccessor => s

/-- Run a sequence of operations. -/
def run (cfg : OMConfig) (s : OMState) (ops : List Op) : OMState :=
  ops.foldl (step cfg) s

/-- True unless the operation is a `record_fill` with negative size. -/
def Op.fillSizeOk : Op → Bool
  | .recordFill _ size _ => decide (0 ≤ size)
  | _ => true

end Execution

namespace Strategy

/-- The `TradeSignal` dataclass (`strategy.py`, lines 18-26). -/
structure TradeSignal where
  token_id : String
  side : String
  price : ℚ
  size : ℚ
  ev : ℚ
  deriving DecidableEq

/-- Constructor arguments of `LatencyArbitrageStrategy`
(`strategy.py`, lines 35-41). -/
structure LatencyArbConfig where
  jump_threshold_pct : ℚ
  ev_threshold : ℚ
  deriving DecidableEq

/-- `LatencyArbitrageStrategy.check_signal` (`strategy.py`, lines 45-90).
`binance_change_pct` is the lead-feed percent change (`none` when
unknown); `binance_price` and `binance_prev_price` are accepted but never
read, as in the source. -/
def check_signal (cfg : LatencyArbConfig) (yes_token_id : String)
    (_binance_price : ℚ) (_binance_prev_price : Option ℚ)
    (binance_change_pct : Option ℚ) (poly_yes_price : ℚ)
    (position_size_usd : ℚ) : Option TradeSignal :=
  if poly_yes_price ≤ 0 ∨ 1 ≤ poly_yes_price then none
  else
    match binance_change_pct with
    | none => none
    | some pct =>
      if pct < cfg.jump_threshold_pct then none
      else
        let bump := min (8/100 : ℚ) ((pct / 100) * 2)
        let implied_prob := min (99/100 : ℚ) (poly_yes_price + bump)
        let ev := if 0 < poly_yes_price then implied_prob / poly_yes_price else 0
        if ev < cfg.ev_threshold then none
        else
          let num_shares := position_size_usd / poly_yes_price
          let size := pyRound num_shares 2
          if size < 1 then none
          else
            some { token_id := yes_token_id
                   side := "BUY"
                   price := pyRound poly_yes_price 3
                   size := size
                   ev := ev }

/-- The expected-value formula of the claim:
`min(0.99, lagPrice + min(0.08, (pctChange/100)*2)) / lagPrice`. -/
def evFormula (lagPrice pct : ℚ) : ℚ :=
  min (99/100 : ℚ) (lagPrice + min (8/100 : ℚ) ((pct / 100) * 2)) / lagPrice

end Strategy

namespace Scanner

/-- Result of fetching one market by id in `Scanner.get_market_resolution`
(`scanner.py`, lines 168-191).  `fetchErr` models any exception on the
way to a decoded market object (network error, non-2xx status, JSON
decode failure) — all caught by the method's `except Exception`.
`ok closed prices` is a decoded market: its `closed` flag and its
settlement price array; `prices = none` models a payload whose
`outcomePrices`/`outcomes` field cannot be parsed into numbers (the
resulting exception is equally caught). -/
inductive MarketFetch where
  | fetchErr
  | ok (closed : Bool) (prices : Option (List ℚ))
  deriving DecidableEq

/-- `Scanner.get_market_resolution` (`scanner.py`, lines 168-191): `none`
if the fetch failed or the market is not closed or fewer than two
settlement prices are present; otherwise whether the first settlement
price exceeds 0.5. -/
def get_market_resolution : MarketFetch → Option Bool
  | .fetchErr => none
  | .ok closed prices =>
    if !closed then none
    else
      match prices with
      | none => none
      | some ps =>
        match ps with
        | p0 :: _ :: _ => some (decide ((1/2 : ℚ) < p0))
        | _ => none

end Scanner

/-- One event seen by a feed's reconnect loop: either the transport
connection ends (`run_forever` returns or raises, after which the loop
sleeps and doubles the backoff), or a message is delivered to the
`on_message` callback. -/
inductive FeedEv (α : Type) where
  | connFail
  | msg (m : α)
  deriving DecidableEq

namespace BinanceFeed

/-- `BACKOFF_BASE_SEC` (`binance_feed.py`, line 20). -/
def BACKOFF_BASE_SEC : ℚ := 1
/-- `BACKOFF_MAX_SEC` (`binance_feed.py`, line 21). -/
def BACKOFF_MAX_SEC : ℚ := 120
/-- `BACKOFF_MULTIPLIER` (`binance_feed.py`, line 22). -/
def BACKOFF_MULTIPLIER : ℚ := 2

/-- One raw websocket message as seen by `BinancePriceFeed._on_message`
(`binance_feed.py`, lines 40-52): either JSON decoding / float conversion
raises (caught and logged), or it decodes to a payload whose `"c"` field
converts to the number `c` (a missing `"c"` reads as `0`). -/
inductive BinanceMsg where
  | parseFail
  | tick (c : ℚ)
  deriving DecidableEq

/-- Feed-owned state of `BinancePriceFeed` (`binance_feed.py`,
lines 30-38): last price, previous price, stored backoff. -/
structure BinanceState where
  price : Option ℚ
  prev_price : Option ℚ
  backoff_sec : ℚ
  deriving DecidableEq

/-- State set up by `BinancePriceFeed.__init__`. -/
def BinanceState.init : BinanceState :=
  { price := none, prev_price := none, backoff_sec := BACKOFF_BASE_SEC }

/-- `BinancePriceFeed._on_message` (`binance_feed.py`, lines 40-52):
a parsed tick with positive price shifts prices and resets the backoff;
anything else leaves the state unchanged. -/
def on_message (st : BinanceState) : BinanceMsg → BinanceState
  | .parseFail => st
  | .tick c =>
    if 0 < c then
      { price := some c, prev_price := st.price, backoff_sec := BACKOFF_BASE_SEC }
    else st

/-- One iteration step of the reconnect loop `BinancePriceFeed._run_ws`
(`binance_feed.py`, lines 65-96): a connection failure sleeps
`min(backoff, BACKOFF_MAX_SEC)` (returned as the emitted delay) and then
stores `min(backoff * BACKOFF_MULTIPLIER, BACKOFF_MAX_SEC)`; a message
event runs `_on_message`. -/
def loop_step (st : BinanceState) : FeedEv BinanceMsg → BinanceState × Option ℚ
  | .connFail =>
    ({ st with backoff_sec := min (st.backoff_sec * BACKOFF_MULTIPLIER) BACKOFF_MAX_SEC },
     some (min st.backoff_sec BACKOFF_MAX_SEC))
  | .msg m => (on_message st m, none)

/-- Run the reconnect loop over a list of events, collecting the slept
delays in order. -/
def run_loop (st : BinanceState) : List (FeedEv BinanceMsg) → BinanceState × List ℚ
  | [] => (st, [])
  | ev :: evs =>
    let (st1, d?) := loop_step st ev
    let (stF, ds) := run_loop st1 evs
    (stF, match d? with | some d => d :: ds | none => ds)

end BinanceFeed

namespace OrderBookFeed

/-- `BACKOFF_BASE` (`order_book_feed.py`, line 19). -/
def BACKOFF_BASE : ℚ := 1
/-- `BACKOFF_MAX` (`order_book_feed.py`, line 20). -/
def BACKOFF_MAX : ℚ := 60
/-- `BACKOFF_MULT` (`order_book_feed.py`, line 21). -/
def BACKOFF_MULT : ℚ := 2

/-- Subscription identity of an `OrderBookFeed` instance
(`order_book_feed.py`, lines 30-37). -/
structure OBCfg where
  yes_token_id : String
  no_token_id : String
  deriving DecidableEq

/-- Feed-owned state of `OrderBookFeed`: best bid, best ask, mid price,
stored backoff (`order_book_feed.py`, lines 39-45). -/
structure OBState where
  best_bid : Option ℚ
  best_ask : Option ℚ
  mid_price : Option ℚ
  backoff : ℚ
  deriving DecidableEq

/-- State set up by `OrderBookFeed.__init__`. -/
def OBState.init : OBState :=
  { best_bid := none, best_ask := none, mid_price := none, backoff := BACKOFF_BASE }

/-- One `best_bid`/`best_ask` field of a `price_change` entry as read in
`_process_message` (`order_book_feed.py`, lines 80-90): the key may be
absent (`pc.get` returns `None`), present but not convertible by `float`
(the `ValueError`/`TypeError` is caught and the entry skipped), or a
number. -/
inductive PCField where
  | absent
  | malformed
  | val (q : ℚ)
  deriving DecidableEq

/-- One entry of the `price_changes` array. -/
structure PriceChange where
  asset_id : String
  best_bid : PCField
  best_ask : PCField
  deriving DecidableEq

/-- A decoded order-book message (a JSON object), with the fields
`_process_message` reads (`order_book_feed.py`, lines 55-91).  Absent
keys are `none`/`[]`; `bids`/`asks` carry the price of each level. -/
structure OBMsg where
  event_type : String
  asset_id : String
  best_bid : Option ℚ
  best_ask : Option ℚ
  bids : List ℚ
  asks : List ℚ
  price_changes : List PriceChange
  deriving DecidableEq

/-- `OrderBookFeed._update_book` (`order_book_feed.py`, lines 93-100):
store bid and ask, recompute the mid (Python truthiness: a zero bid or
ask makes the mid `None`), and reset the backoff to base. -/
def update_book (st : OBState) (b a : ℚ) : OBState :=
  { st with
    best_bid := some b
    best_ask := some a
    mid_price := if b ≠ 0 ∧ a ≠ 0 then some ((b + a) / 2) else none
    backoff := BACKOFF_BASE }

/-- `OrderBookFeed._process_message` (`order_book_feed.py`, lines 55-91).
`best_bid_ask` events update whenever both fields are present; `book`
events update only for the subscribed yes token, from the top levels;
`price_change` events scan for the first entry whose asset is the yes
token (then `break`) and update only when both prices are present,
parseable, positive, and the ask is below 2. -/
def process_message (cfg : OBCfg) (st : OBState) (m : OBMsg) : OBState :=
  if m.event_type = "best_bid_ask" then
    match m.best_bid, m.best_ask with
    | some b, some a => update_book st b a
    | _, _ => st
  else if m.event_type = "book" then
    if m.asset_id ≠ cfg.yes_token_id then st
    else
      match m.bids.head?, m.asks.head? with
      | some b, some a => update_book st b a
      | _, _ => st
  else if m.event_type = "price_change" then
    match m.price_changes.find? (fun pc => pc.asset_id = cfg.yes_token_id) with
    | none => st
    | some pc =>
      match pc.best_bid, pc.best_ask with
      | .val b, .val a => if 0 < b ∧ 0 < a ∧ a < 2 then update_book st b a else st
      | _, _ => st
  else st

/-- One raw websocket message as seen by `OrderBookFeed._on_message`
(`order_book_feed.py`, lines 47-53): `parseFail` models a payload that
fails `json.loads` or does not decode to a JSON object (both are dropped
before `_process_message`); `dict m` a decoded object. -/
inductive OBRaw where
  | parseFail
  | dict (m : OBMsg)
  deriving DecidableEq

/-- One iteration step of the reconnect loop `OrderBookFeed._run_ws`
(`order_book_feed.py`, lines 102-120): a connection failure sleeps
`min(backoff, BACKOFF_MAX)` (the emitted delay) and stores
`min(backoff * BACKOFF_MULT, BACKOFF_MAX)`; a message event runs
`_on_message`. -/
def loop_step (cfg : OBCfg) (st : OBState) : FeedEv OBRaw → OBState × Option ℚ
  | .connFail =>
    ({ st with backoff := min (st.backoff * BACKOFF_MULT) BACKOFF_MAX },
     some (min st.backoff BACKOFF_MAX))
  | .msg .parseFail => (st, none)
  | .msg (.dict m) => (process_message cfg st m, none)

/-- Run the reconnect loop over a list of events, collecting the slept
delays in order. -/
def run_loop (cfg : OBCfg) (st : OBState) : List (FeedEv OBRaw) → OBState × List ℚ
  | [] => (st, [])
  | ev :: evs =>
    let (st1, d?) := loop_step cfg st ev
    let (stF, ds) := run_loop cfg st1 evs
    (stF, match d? with | some d => d :: ds | none => ds)

end OrderBookFeed

namespace MarketMaking

/-- A per-side buy quote intent of the symmetrical market-making variant. -/
structure QuoteIntent where
  outcome : String
  price : ℚ
  size : ℚ
  deriving DecidableEq

/-- Modelled from the spec: the symmetrical market-making strategy variant
is not present under `src/` (only the latency-arbitrage variant is);
this follows §4.3 of the spec: "input is current mid price (must lie
strictly between 0 and 1), a target spread, a uniform share size, and two
independent may-I-quote-this-side flags.  Compute outcome-A bid =
mid − spread, outcome-B bid = (1 − mid) − spread, each rounded to 3
decimals.  Emit a buy intent per side only if that side is
flag-permitted, its price lies within [0.01, 0.99], and size ≥ 1.  Zero,
one, or two intents may result." -/
def mm_quotes (mid spread size : ℚ) (can_yes can_no : Bool) : List QuoteIntent :=
  if mid ≤ 0 ∨ 1 ≤ mid then []
  else
    let yes_bid := pyRound (mid - spread) 3
    let no_bid := pyRound ((1 - mid) - spread) 3
    (if can_yes ∧ 1/100 ≤ yes_bid ∧ yes_bid ≤ 99/100 ∧ 1 ≤ size then
       [{ outcome := "Yes", price := yes_bid, size := size }]
     else []) ++
    (if can_no ∧ 1/100 ≤ no_bid ∧ no_bid ≤ 99/100 ∧ 1 ≤ size then
       [{ outcome := "No", price := no_bid, size := size }]
     else [])

end MarketMaking

/-- Number of connection failures in a feed event sequence. -/
def countConnFails {α : Type} : List (FeedEv α) → ℕ :=
  List.countP (fun ev => match ev with | .connFail => true | _ => false)

/-- Order-book feed subscribed to yes token "Y" and no token "N". -/
def obCfgX : OrderBookFeed.OBCfg := { yes_token_id := "Y", no_token_id := "N" }

/-- A `best_bid_ask` message carrying an unsubscribed token identifier. -/
def obMsgForeignBBA : OrderBookFeed.OBMsg :=
  { event_type := "best_bid_ask", asset_id := "X", best_bid := some (2/5),
    best_ask := some (3/5), bids := [], asks := [], price_changes := [] }

/-- A well-formed `book` message carrying an unsubscribed token identifier. -/
def obMsgForeignBook : OrderBookFeed.OBMsg :=
  { event_type := "book", asset_id := "X", best_bid := none,
    best_ask := none, bids := [2/5], asks := [3/5], price_changes := [] }

/-- A `price_change` message whose only entry is for the subscribed yes
token but has an implausible ask (3 ≥ 2). -/
def obMsgPCBad : OrderBookFeed.OBMsg :=
  { event_type := "price_change", asset_id := "", best_bid := none,
    best_ask := none, bids := [], asks := [],
    price_changes := [{ asset_id := "Y", best_bid := .val (1/2), best_ask := .val 3 }] }

/-- A `price_change` message whose entries all carry unsubscribed token
identifiers. -/
def obMsgPCForeign : OrderBookFeed.OBMsg :=
  { event_type := "price_change", asset_id := "", best_bid := none,
    best_ask := none, bids := [], asks := [],
    price_changes := [{ asset_id := "X", best_bid := .val (2/5), best_ask := .val (3/5) }] }

/-- Event sequence: one connection failure, then a successfully parsed
`book` message for an unsubscribed token. -/
def obEvsCex : List (FeedEv OrderBookFeed.OBRaw) :=
  [.connFail, .msg (.dict obMsgForeignBook)]

/-- Configuration used in concrete instantiations. -/
def cfgW : Execution.OMConfig :=
  { position_size_usd := 10
    circuit_breaker_loss_usd := 50
    max_inventory_yes := 5
    max_inventory_no := 5
    mid_drift_threshold := 1/100 }

/-- State with the latch already set. -/
def sTripped : Execution.OMState :=
  { Execution.OMState.init with circuit_breaker_tripped := true, daily_pnl := -60 }

/-- State with both resting orders tracked. -/
def sBid : Execution.OMState :=
  { Execution.OMState.init with
    active_yes_bid := some (1/2, 10), active_no_bid := some (2/5, 7) }

/-- Latency-arbitrage configuration of the worked spec example:
jump threshold 0.1, EV threshold 1.02. -/
def cfgC3 : Strategy.LatencyArbConfig := { jump_threshold_pct := 1/10, ev_threshold := 102/100 }

namespace Execution

/-- Closed form of `record_pnl`: session increased by `pnl`; daily zeroed
first iff the stamped reset date is not today; today stamped; latch ends
set iff it already was or the new daily total is at or below minus the
limit; nothing else changes. -/
theorem record_pnl_spec (cfg : OMConfig) (today : ℕ) (pnl : ℚ) (s : OMState) :
    record_pnl cfg today pnl s =
      { s with
        session_pnl := s.session_pnl + pnl
        daily_pnl := (if s.daily_reset_date = some today then s.daily_pnl else 0) + pnl
        daily_reset_date := some today
        circuit_breaker_tripped :=
          s.circuit_breaker_tripped ||
            decide ((if s.daily_reset_date = some today then s.daily_pnl else 0) + pnl
              ≤ -cfg.circuit_breaker_loss_usd) } := by
  unfold record_pnl reset_daily_if_needed
  by_cases hd : s.daily_reset_date = some today <;>
    simp only [hd, ne_eq, not_true_eq_false, or_false, if_false, not_false_eq_true, or_true,
      if_true, reduceCtorEq, if_neg, if_pos] <;>
    split_ifs with hc <;>
    simp_all

/-- No operation ever clears the latch. -/
theorem step_tripped_mono (cfg : OMConfig) (op : Op) (s : OMState)
    (h : s.circuit_breaker_tripped = true) :
    (step cfg s op).circuit_breaker_tripped = true := by
  cases op with
  | recordPnl t p => rw [step, record_pnl_spec]; simp [h]
  | recordFill o sz p =>
    simp only [step, record_fill]; split_ifs <;> simpa using h
  | placeOrder sub tok sd pr sz o =>
    cases sub <;> simp [step, place_post_only_limit_order, h]
  | cancelAll resp =>
    cases resp <;> simpa [step, cancel_all_orders] using h
  | shouldRequote m => simpa [step] using h
  | setLastMid m => simpa [step, set_last_mid] using h
  | clearActiveBid o =>
    simp only [step, clear_active_bid]; split_ifs <;> simpa using h
  | dailyPnlRead t =>
    simp only [step, daily_pnl_read, reset_daily_if_needed]
    split_ifs <;> simpa using h
  | readAccessor => simpa [step] using h

/-- Setting the latch can only happen in `record_pnl`, and only because the
new daily total is at or below minus the limit. -/
theorem step_sets_latch_only (cfg : OMConfig) (op : Op) (s : OMState)
    (h : (step cfg s op).circuit_breaker_tripped = true) :
    s.circuit_breaker_tripped = true ∨
      ∃ t p, op = Op.recordPnl t p ∧
        (step cfg s op).daily_pnl ≤ -cfg.circuit_breaker_loss_usd := by
  cases op with
  | recordPnl t p =>
    rw [step, record_pnl_spec] at h ⊢
    simp only [Bool.or_eq_true, decide_eq_true_eq] at h
    rcases h with h | h
    · exact Or.inl h
    · exact Or.inr ⟨t, p, rfl, by simpa using h⟩
  | recordFill o sz p =>
    simp only [step, record_fill] at h; left; split_ifs at h <;> simpa using h
  | placeOrder sub tok sd pr sz o =>
    left
    by_cases ht : s.circuit_breaker_tripped = true
    · exact ht
    · simp only [Bool.not_eq_true] at ht
      cases sub with
      | error e => simpa [step, place_post_only_limit_order, ht] using h
      | ok u =>
        simp only [step, place_post_only_limit_order, ht] at h
        split_ifs at h <;> simp_all
  | cancelAll resp =>
    left; cases resp <;> simpa [step, cancel_all_orders] using h
  | shouldRequote m => exact Or.inl (by simpa [step] using h)
  | setLastMid m => exact Or.inl (by simpa [step, set_last_mid] using h)
  | clearActiveBid o =>
    simp only [step, clear_active_bid] at h; left; split_ifs at h <;> simpa using h
  | dailyPnlRead t =>
    simp only [step, daily_pnl_read, reset_daily_if_needed] at h
    left; split_ifs at h <;> simpa using h
  | readAccessor => exact Or.inl (by simpa [step] using h)

/-- A step with a non-negative fill size keeps both inventory counters
non-negative. -/
theorem step_inventory_nonneg (cfg : OMConfig) (op : Op) (s : OMState)
    (hop : op.fillSizeOk = true)
    (hy : 0 ≤ s.inventory_yes) (hn : 0 ≤ s.inventory_no) :
    0 ≤ (step cfg s op).inventory_yes ∧ 0 ≤ (step cfg s op).inventory_no := by
  cases op with
  | recordPnl t p =>
    simp only [step]; rw [record_pnl_spec]; exact ⟨hy, hn⟩
  | recordFill o sz p =>
    simp only [Op.fillSizeOk, decide_eq_true_eq] at hop
    simp only [step, record_fill]
    split_ifs
    · exact ⟨add_nonneg hy hop, hn⟩
    · exact ⟨hy, add_nonneg hn hop⟩
  | placeOrder sub tok sd pr sz o =>
    cases sub <;> simp only [step, place_post_only_limit_order] <;>
      split_ifs <;> exact ⟨hy, hn⟩
  | cancelAll resp => cases resp <;> exact ⟨hy, hn⟩
  | shouldRequote m => exact ⟨hy, hn⟩
  | setLastMid m => exact ⟨hy, hn⟩
  | clearActiveBid o =>
    simp only [step, clear_active_bid]; split_ifs <;> exact ⟨hy, hn⟩
  | dailyPnlRead t =>
    simp only [step, daily_pnl_read, reset_daily_if_needed]
    split_ifs <;> exact ⟨hy, hn⟩
  | readAccessor => exact ⟨hy, hn⟩

/-- Running any sequence whose fill sizes are non-negative keeps both
inventory counters non-negative. -/
theorem run_inventory_nonneg (cfg : OMConfig) :
    ∀ (ops : List Op) (s : OMState), ops.all Op.fillSizeOk = true →
      0 ≤ s.inventory_yes → 0 ≤ s.inventory_no →
      0 ≤ (run cfg s ops).inventory_yes ∧ 0 ≤ (run cfg s ops).inventory_no
  | [], _, _, hy, hn => ⟨hy, hn⟩
  | op :: ops, s, hall, hy, hn => by
    simp only [List.all_cons, Bool.and_eq_true] at hall
    have h := step_inventory_nonneg cfg op s hall.1 hy hn
    exact run_inventory_nonneg cfg ops (step cfg s op) hall.2 h.1 h.2

end Execution

/-- C1: `record_pnl(delta)` adds `delta` to the session total; the daily
accumulator is zeroed before the addition exactly when the current UTC
date is not the stamped reset date (or none is stamped yet), and the
stamp then equals today, so the reset occurs once per UTC day on the
first `record_pnl` or `daily_pnl` access after the date change; after the
addition the latch is (newly) set if and only if the daily accumulator is
at or below minus the daily-loss limit — it ends set iff it was already
set or that condition holds — and no other operation, nor any other
condition, ever sets the latch. -/
theorem C1_record_pnl (cfg : Execution.OMConfig) (today : ℕ) (pnl : ℚ)
    (s : Execution.OMState) :
    (Execution.record_pnl cfg today pnl s).session_pnl = s.session_pnl + pnl
    ∧ (Execution.record_pnl cfg today pnl s).daily_pnl =
        (if s.daily_reset_date = some today then s.daily_pnl else 0) + pnl
    ∧ (Execution.record_pnl cfg today pnl s).daily_reset_date = some today
    ∧ ((Execution.record_pnl cfg today pnl s).circuit_breaker_tripped = true ↔
        s.circuit_breaker_tripped = true ∨
          (Execution.record_pnl cfg today pnl s).daily_pnl
            ≤ -cfg.circuit_breaker_loss_usd)
    ∧ (Execution.daily_pnl_read today s).2 =
        (if s.daily_reset_date = some today then s.daily_pnl else 0)
    ∧ (∀ op : Execution.Op,
        (Execution.step cfg s op).circuit_breaker_tripped = true →
          s.circuit_breaker_tripped = true ∨
            ∃ t p, op = Execution.Op.recordPnl t p ∧
              (Execution.step cfg s op).daily_pnl
                ≤ -cfg.circuit_breaker_loss_usd) := by
  refine ⟨?_, ?_, ?_, ?_, ?_, fun op => Execution.step_sets_latch_only cfg op s⟩
  · rw [Execution.record_pnl_spec]
  · rw [Execution.record_pnl_spec]
  · rw [Execution.record_pnl_spec]
  · rw [Execution.record_pnl_spec]
    simp only [Bool.or_eq_true, decide_eq_true_eq]
  · unfold Execution.daily_pnl_read Execution.reset_daily_if_needed
    by_cases hd : s.daily_reset_date = some today <;> simp [hd] <;> simp_all

/-- Witness for C1: a first `record_pnl` of −60 on day 1 (loss limit 50)
lowers the session total by 60 and newly sets the latch. -/
theorem C1_record_pnl_witness :
    (Execution.record_pnl cfgW 1 (-60) Execution.OMState.init).session_pnl = 0 + (-60)
    ∧ (Execution.record_pnl cfgW 1 (-60)
        Execution.OMState.init).circuit_breaker_tripped = true := by
  have h := C1_record_pnl cfgW 1 (-60) Execution.OMState.init
  refine ⟨h.1, h.2.2.2.1.mpr (Or.inr ?_)⟩
  rw [h.2.1]
  norm_num [Execution.OMState.init, cfgW]

/-- C2: the circuit-breaker latch is one-way — from any state with the
latch set, every sequence of `OrderManager` operations leaves it set. -/
theorem C2_latch_one_way (cfg : Execution.OMConfig) (ops : List Execution.Op)
    (s : Execution.OMState) (h : s.circuit_breaker_tripped = true) :
    (Execution.run cfg s ops).circuit_breaker_tripped = true := by
  induction ops generalizing s with
  | nil => exact h
  | cons op ops ih => exact ih (Execution.step cfg s op) (Execution.step_tripped_mono cfg op s h)

/-- Witness for C2: a state with the latch set, run through one of each
kind of operation (including a large positive P&L), still has it set. -/
theorem C2_latch_one_way_witness :
    (Execution.run cfgW sTripped
      [Execution.Op.recordPnl 3 1000,
       Execution.Op.dailyPnlRead 4,
       Execution.Op.recordPnl 4 1000,
       Execution.Op.recordFill "Yes" 2 (1/2),
       Execution.Op.placeOrder (.ok ()) "tok" "BUY" (1/2) 10 "Yes",
       Execution.Op.cancelAll (.ok []),
       Execution.Op.shouldRequote (1/2),
       Execution.Op.setLastMid (1/2),
       Execution.Op.clearActiveBid "Yes",
       Execution.Op.readAccessor]).circuit_breaker_tripped = true :=
  C2_latch_one_way cfgW _ sTripped rfl

/-- C5: `place_post_only_limit_order` fails without contacting the
exchange and without touching state when the latch is set; a raising
submission collaborator yields a caught failure with unchanged state;
a confirmed submission yields success and records (price, size) as the
resting order of the given outcome side; and success occurs only on a
confirmed submission with the latch clear. -/
theorem C5_place_order (submit : Except Unit Unit) (tok sd : String)
    (price size : ℚ) (outcome : String) (s : Execution.OMState) :
    (s.circuit_breaker_tripped = true →
        Execution.place_post_only_limit_order submit tok sd price size outcome s
          = (s, false, false))
    ∧ (s.circuit_breaker_tripped = false → ∀ e, submit = .error e →
        Execution.place_post_only_limit_order submit tok sd price size outcome s
          = (s, false, true))
    ∧ (s.circuit_breaker_tripped = false → submit = .ok () →
        (Execution.place_post_only_limit_order submit tok sd price size outcome s).2.1 = true
        ∧ (outcome = "Yes" →
            (Execution.place_post_only_limit_order submit tok sd price size outcome s).1
              = { s with active_yes_bid := some (price, size) })
        ∧ (outcome = "No" →
            (Execution.place_post_only_limit_order submit tok sd price size outcome s).1
              = { s with active_no_bid := some (price, size) })
        ∧ (outcome ≠ "Yes" → outcome ≠ "No" →
            (Execution.place_post_only_limit_order submit tok sd price size outcome s).1 = s))
    ∧ ((Execution.place_post_only_limit_order submit tok sd price size outcome s).2.1 = true →
        submit = .ok () ∧ s.circuit_breaker_tripped = false) := by
  refine ⟨fun ht => ?_, fun ht e he => ?_, fun ht hs => ?_, fun hs => ?_⟩
  · simp [Execution.place_post_only_limit_order, ht]
  · subst he; simp [Execution.place_post_only_limit_order, ht]
  · subst hs
    refine ⟨by simp [Execution.place_post_only_limit_order, ht], fun hy => ?_, fun hn => ?_,
      fun hy hn => ?_⟩
    · simp [Execution.place_post_only_limit_order, ht, hy]
    · simp [Execution.place_post_only_limit_order, ht, hn]
    · simp [Execution.place_post_only_limit_order, ht, hy, hn]
  · by_cases ht : s.circuit_breaker_tripped <;> cases submit <;>
      simp_all [Execution.place_post_only_limit_order]

/-- Witness for C5: concrete instantiations of the tripped, raising and
confirmed branches. -/
theorem C5_place_order_witness :
    Execution.place_post_only_limit_order (.ok ()) "tok" "BUY" (1/2) 10 "Yes" sTripped
      = (sTripped, false, false)
    ∧ Execution.place_post_only_limit_order (.error ()) "tok" "BUY" (1/2) 10 "Yes"
        Execution.OMState.init = (Execution.OMState.init, false, true)
    ∧ (Execution.place_post_only_limit_order (.ok ()) "tok" "BUY" (1/2) 10 "Yes"
        Execution.OMState.init).1
        = { Execution.OMState.init with active_yes_bid := some (1/2, 10) } :=
  ⟨(C5_place_order (.ok ()) "tok" "BUY" (1/2) 10 "Yes" sTripped).1 rfl,
   (C5_place_order (.error ()) "tok" "BUY" (1/2) 10 "Yes" Execution.OMState.init).2.1 rfl () rfl,
   ((C5_place_order (.ok ()) "tok" "BUY" (1/2) 10 "Yes" Execution.OMState.init).2.2.1
      rfl rfl).2.1 rfl⟩

/-- Counterexample to C6: when the bulk-cancel collaborator raises, the
tracked resting orders are NOT cleared — they keep their old values. -/
theorem C6_cancel_all_cex :
    (Execution.cancel_all_orders (.error ()) sBid).active_yes_bid = some (1/2, 10)
    ∧ (Execution.cancel_all_orders (.error ()) sBid).active_no_bid = some (2/5, 7) :=
  ⟨rfl, rfl⟩

/-- C6 (amended): `cancel_all_orders` never propagates an exception
(total in the model); when the bulk-cancel collaborator returns normally
both tracked resting orders are cleared, regardless of how many order ids
the exchange reports as canceled; when the collaborator raises, the
exception is swallowed and the whole state is left unchanged; the
non-order fields are never touched. -/
theorem C6_cancel_all (resp : Except Unit (List String)) (s : Execution.OMState) :
    (∀ canceled, resp = .ok canceled →
        Execution.cancel_all_orders resp s
          = { s with active_yes_bid := none, active_no_bid := none })
    ∧ (∀ e, resp = .error e → Execution.cancel_all_orders resp s = s)
    ∧ (Execution.cancel_all_orders resp s).session_pnl = s.session_pnl
    ∧ (Execution.cancel_all_orders resp s).circuit_breaker_tripped
        = s.circuit_breaker_tripped
    ∧ (Execution.cancel_all_orders resp s).inventory_yes = s.inventory_yes
    ∧ (Execution.cancel_all_orders resp s).inventory_no = s.inventory_no := by
  cases resp <;> simp [Execution.cancel_all_orders]

/-- Witness for C6 (amended): a normal return clears both tracked orders
even when the exchange canceled nothing; a raise leaves them in place. -/
theorem C6_cancel_all_witness :
    Execution.cancel_all_orders (.ok []) sBid
      = { sBid with active_yes_bid := none, active_no_bid := none }
    ∧ Execution.cancel_all_orders (.error ()) sBid = sBid :=
  ⟨(C6_cancel_all (.ok []) sBid).1 [] rfl, (C6_cancel_all (.error ()) sBid).2.1 () rfl⟩

/-- Counterexample to C9: the code never caps inventory on `record_fill`,
so a state in which an inventory counter exceeds its configured maximum
(10 > 5) is reachable from the initial state by an operation sequence
with non-negative fill sizes. -/
theorem C9_inventory_cex :
    Execution.Op.fillSizeOk (Execution.Op.recordFill "Yes" 10 1) = true
    ∧ cfgW.max_inventory_yes <
        (Execution.run cfgW Execution.OMState.init
          [Execution.Op.recordFill "Yes" 10 1]).inventory_yes := by
  constructor
  · decide
  · show (5:ℚ) < 0 + 10
    norm_num

/-- C9 (amended): in every state reachable from the initial state by a
sequence of operations with non-negative fill sizes, both inventory
counters are non-negative (the configured maxima are NOT enforced by
`record_fill`); and `can_quote_yes` / `can_quote_no` return true exactly
when the corresponding counter is strictly below its configured maximum. -/
theorem C9_inventory (cfg : Execution.OMConfig) (ops : List Execution.Op)
    (h : ops.all Execution.Op.fillSizeOk = true) :
    (0 ≤ (Execution.run cfg Execution.OMState.init ops).inventory_yes
      ∧ 0 ≤ (Execution.run cfg Execution.OMState.init ops).inventory_no)
    ∧ ∀ s : Execution.OMState,
        (Execution.can_quote_yes cfg s = true ↔ s.inventory_yes < cfg.max_inventory_yes)
        ∧ (Execution.can_quote_no cfg s = true ↔ s.inventory_no < cfg.max_inventory_no) := by
  refine ⟨Execution.run_inventory_nonneg cfg ops _ h le_rfl le_rfl, fun s => ⟨?_, ?_⟩⟩
  · simp [Execution.can_quote_yes]
  · simp [Execution.can_quote_no]

/-- Witness for C9 (amended), at a concrete fill sequence and the initial
state. -/
theorem C9_inventory_witness :
    0 ≤ (Execution.run cfgW Execution.OMState.init
          [Execution.Op.recordFill "Yes" 2 1]).inventory_yes
    ∧ (Execution.can_quote_yes cfgW Execution.OMState.init = true ↔
        Execution.OMState.init.inventory_yes < cfgW.max_inventory_yes) :=
  ⟨(C9_inventory cfgW [Execution.Op.recordFill "Yes" 2 1] (by decide)).1.1,
   ((C9_inventory cfgW [Execution.Op.recordFill "Yes" 2 1] (by decide)).2
      Execution.OMState.init).1⟩

/-- An unknown lead percent change yields no signal (the guard rejects
`None` before anything else is computed beyond the price range check). -/
theorem check_signal_none (cfg : Strategy.LatencyArbConfig) (tok : String)
    (bp : ℚ) (bpp : Option ℚ) (pyp psz : ℚ) :
    Strategy.check_signal cfg tok bp bpp none pyp psz = none := by
  unfold Strategy.check_signal
  exact ite_self none

/-- Closed form of `check_signal` for a known percent change: a single
BUY signal at the rounded lag price exactly when the lag price is in
(0, 1), the change is at least the jump threshold, the EV formula meets
the EV threshold and the rounded size is at least 1; `none` otherwise. -/
theorem check_signal_eq (cfg : Strategy.LatencyArbConfig) (tok : String)
    (bp : ℚ) (bpp : Option ℚ) (pct pyp psz : ℚ) :
    Strategy.check_signal cfg tok bp bpp (some pct) pyp psz =
      if 0 < pyp ∧ pyp < 1 ∧ cfg.jump_threshold_pct ≤ pct
          ∧ cfg.ev_threshold ≤ Strategy.evFormula pyp pct
          ∧ 1 ≤ pyRound (psz / pyp) 2 then
        some { token_id := tok, side := "BUY", price := pyRound pyp 3,
               size := pyRound (psz / pyp) 2, ev := Strategy.evFormula pyp pct }
      else none := by
  unfold Strategy.check_signal Strategy.evFormula
  by_cases h1 : pyp ≤ 0 ∨ 1 ≤ pyp
  · rw [if_pos h1, if_neg]
    rintro ⟨ha, hb, -⟩
    rcases h1 with h | h <;> linarith
  · rw [if_neg h1]
    push_neg at h1
    obtain ⟨hp0, hp1⟩ := h1
    dsimp only
    rw [if_pos hp0]
    by_cases h2 : pct < cfg.jump_threshold_pct
    · rw [if_pos h2, if_neg]
      rintro ⟨-, -, hj, -⟩
      linarith
    · rw [if_neg h2]
      by_cases h3 : min (99/100) (pyp + min (8/100) (pct / 100 * 2)) / pyp < cfg.ev_threshold
      · rw [if_pos h3, if_neg]
        rintro ⟨-, -, -, he, -⟩
        linarith
      · rw [if_neg h3]
        by_cases h4 : pyRound (psz / pyp) 2 < 1
        · rw [if_pos h4, if_neg]
          rintro ⟨-, -, -, -, hs⟩
          linarith
        · rw [if_neg h4,
            if_pos ⟨hp0, hp1, not_lt.mp h2, not_lt.mp h3, not_lt.mp h4⟩]

/-- C3: `check_signal` emits a signal exactly when the lag price is
strictly between 0 and 1, the lead percent change is known and at least
the jump threshold, `ev = min(0.99, lagPrice + min(0.08, pct/100*2)) /
lagPrice` is at least the EV threshold, and `round(notional/lagPrice, 2)`
is at least 1; the emitted signal is a single BUY at
`round(lagPrice, 3)` for that size with that EV; in particular with
lagPrice 0.40, jump threshold 0.1, EV threshold 1.02 and notional 10, a
percent change of 0.2 yields no signal (ev = 1.01) while 2.0 yields the
signal (0.400, 25.00, ev 1.10). -/
theorem C3_check_signal (cfg : Strategy.LatencyArbConfig) (tok : String)
    (bp : ℚ) (bpp : Option ℚ) (bcp : Option ℚ) (pyp psz : ℚ) :
    ((∃ sig, Strategy.check_signal cfg tok bp bpp bcp pyp psz = some sig) ↔
      (0 < pyp ∧ pyp < 1 ∧ ∃ pct, bcp = some pct ∧ cfg.jump_threshold_pct ≤ pct
        ∧ cfg.ev_threshold ≤ Strategy.evFormula pyp pct
        ∧ 1 ≤ pyRound (psz / pyp) 2))
    ∧ (∀ pct sig, bcp = some pct →
        Strategy.check_signal cfg tok bp bpp bcp pyp psz = some sig →
        sig = { token_id := tok, side := "BUY", price := pyRound pyp 3,
                size := pyRound (psz / pyp) 2, ev := Strategy.evFormula pyp pct })
    ∧ Strategy.check_signal cfgC3 "tok" bp bpp (some (2/10)) (4/10) 10 = none
    ∧ Strategy.check_signal cfgC3 "tok" bp bpp (some 2) (4/10) 10
        = some { token_id := "tok", side := "BUY", price := 2/5, size := 25, ev := 11/10 } := by
  refine ⟨?_, ?_, ?_, ?_⟩
  · cases bcp with
    | none =>
      rw [check_signal_none]
      simp
    | some pct =>
      rw [check_signal_eq]
      split_ifs with hc
      · constructor
        · rintro -
          exact ⟨hc.1, hc.2.1, pct, rfl, hc.2.2.1, hc.2.2.2.1, hc.2.2.2.2⟩
        · rintro -
          exact ⟨_, rfl⟩
      · constructor
        · rintro ⟨sig, h⟩
          exact h.elim
        · rintro ⟨h0, h1, pct', hpe, hj, he, hs⟩
          injection hpe with hpe'
          subst hpe'
          exact absurd ⟨h0, h1, hj, he, hs⟩ hc
  · intro pct sig hbc h
    subst hbc
    rw [check_signal_eq] at h
    split_ifs at h with hc
    injection h with h'
    exact h'.symm
  · rw [check_signal_eq, if_neg]
    rintro ⟨-, -, -, he, -⟩
    have hev : Strategy.evFormula (4/10) (2/10) = 101/100 := by
      norm_num [Strategy.evFormula, min_def]
    rw [hev] at he
    norm_num [cfgC3] at he
  · rw [check_signal_eq, if_pos]
    · have h1 : pyRound ((4:ℚ)/10) 3 = 2/5 := by norm_num [pyRound, roundHalfEven]
      have h2 : pyRound ((10:ℚ) / (4/10)) 2 = 25 := by norm_num [pyRound, roundHalfEven]
      have h3 : Strategy.evFormula (4/10) 2 = 11/10 := by norm_num [Strategy.evFormula, min_def]
      rw [h1, h2, h3]
    · refine ⟨by norm_num, by norm_num, by norm_num [cfgC3], ?_, ?_⟩
      · have h3 : Strategy.evFormula (4/10) 2 = 11/10 := by norm_num [Strategy.evFormula, min_def]
        rw [h3]; norm_num [cfgC3]
      · have h2 : pyRound ((10:ℚ) / (4/10)) 2 = 25 := by norm_num [pyRound, roundHalfEven]
        rw [h2]; norm_num

/-- Witness for C3: the two worked spec instances, obtained by applying
the theorem at concrete inputs. -/
theorem C3_check_signal_witness :
    (∃ sig, Strategy.check_signal cfgC3 "tok" 0 none (some 2) (4/10) 10 = some sig)
    ∧ Strategy.check_signal cfgC3 "tok" 0 none (some (2/10)) (4/10) 10 = none := by
  have h := C3_check_signal cfgC3 "tok" 0 none (some 2) (4/10) 10
  have h' := C3_check_signal cfgC3 "tok" 0 none (some (2/10)) (4/10) 10
  exact ⟨⟨_, h.2.2.2⟩, h'.2.2.1⟩

/-- C7: `get_market_resolution` never raises (it is total and
`Option`-valued): a fetch/parse failure or a not-yet-closed market yields
`none`; a closed market with at least two settlement prices yields
outcome-A-won exactly when the first price exceeds 0.5; in particular
[0.6, 0.4] yields `some true` and [0.3, 0.7] yields `some false`. -/
theorem C7_resolution (f : Scanner.MarketFetch) :
    (f = .fetchErr → Scanner.get_market_resolution f = none)
    ∧ (∀ prices, f = .ok false prices → Scanner.get_market_resolution f = none)
    ∧ (∀ p0 p1 rest, f = .ok true (some (p0 :: p1 :: rest)) →
        Scanner.get_market_resolution f = some (decide ((1/2 : ℚ) < p0)))
    ∧ Scanner.get_market_resolution (.ok true (some [6/10, 4/10])) = some true
    ∧ Scanner.get_market_resolution (.ok true (some [3/10, 7/10])) = some false := by
  refine ⟨fun h => by subst h; rfl, fun prices h => by subst h; rfl,
    fun p0 p1 rest h => by subst h; rfl, ?_, ?_⟩
  · show some (decide ((1/2:ℚ) < 6/10)) = some true
    simp only [Option.some.injEq, decide_eq_true_eq]
    norm_num
  · show some (decide ((1/2:ℚ) < 3/10)) = some false
    simp only [Option.some.injEq, decide_eq_false_iff_not]
    norm_num

/-- Witness for C7: the three guarded branches instantiated at concrete
fetch results. -/
theorem C7_resolution_witness :
    Scanner.get_market_resolution .fetchErr = none
    ∧ Scanner.get_market_resolution (.ok false (some [6/10, 4/10])) = none
    ∧ Scanner.get_market_resolution (.ok true (some [6/10, 4/10]))
        = some (decide ((1/2:ℚ) < 6/10)) :=
  ⟨(C7_resolution .fetchErr).1 rfl,
   (C7_resolution (.ok false (some [6/10, 4/10]))).2.1 _ rfl,
   (C7_resolution (.ok true (some [6/10, 4/10]))).2.2.1 (6/10) (4/10) [] rfl⟩

/-- Counterexample to C8: a `best_bid_ask` update carrying a token
identifier the feed is not subscribed to ("X", with subscriptions "Y" and
"N") does change the book — the mid price moves from none to 0.5 —
because the `best_bid_ask` branch never checks `asset_id`. -/
theorem C8_frame_cex :
    obMsgForeignBBA.asset_id ≠ obCfgX.yes_token_id
    ∧ obMsgForeignBBA.asset_id ≠ obCfgX.no_token_id
    ∧ (OrderBookFeed.process_message obCfgX OrderBookFeed.OBState.init obMsgForeignBBA).mid_price
        = some (1/2)
    ∧ OrderBookFeed.OBState.init.mid_price = none := by
  refine ⟨by decide, by decide, ?_, rfl⟩
  simp only [OrderBookFeed.process_message, obMsgForeignBBA, obCfgX,
    OrderBookFeed.update_book, OrderBookFeed.OBState.init]
  norm_num

/-- C8 (amended): a `book` update or a `price_change` update carrying
only token identifiers the feed is not subscribed to leaves the state
(best bid, best ask, mid price, backoff) unchanged — `best_bid_ask`
updates, however, are applied without any token check — and a
`price_change` update for the subscribed token whose ask is at least 2 or
whose bid or ask is at most 0 leaves the state unchanged. -/
theorem C8_frame (cfg : OrderBookFeed.OBCfg) (st : OrderBookFeed.OBState)
    (m : OrderBookFeed.OBMsg) :
    (m.event_type = "book" → m.asset_id ≠ cfg.yes_token_id →
        OrderBookFeed.process_message cfg st m = st)
    ∧ (m.event_type = "price_change" →
        (∀ pc ∈ m.price_changes,
          pc.asset_id ≠ cfg.yes_token_id ∧ pc.asset_id ≠ cfg.no_token_id) →
        OrderBookFeed.process_message cfg st m = st)
    ∧ (m.event_type = "price_change" → ∀ pc b a,
        m.price_changes.find? (fun pc => pc.asset_id = cfg.yes_token_id) = some pc →
        pc.best_bid = .val b → pc.best_ask = .val a →
        (2 ≤ a ∨ b ≤ 0 ∨ a ≤ 0) →
        OrderBookFeed.process_message cfg st m = st) := by
  refine ⟨fun hb hy => ?_, fun hp hall => ?_, fun hp pc b a hf hb ha hbad => ?_⟩
  · simp [OrderBookFeed.process_message, hb, hy]
  · have hnone : m.price_changes.find? (fun pc => pc.asset_id = cfg.yes_token_id) = none := by
      refine List.find?_eq_none.mpr fun pc hpc => ?_
      simp [(hall pc hpc).1]
    simp [OrderBookFeed.process_message, hp, hnone]
  · have e1 : (m.event_type = "best_bid_ask") = False := eq_false (by simp [hp])
    have e2 : (m.event_type = "book") = False := eq_false (by simp [hp])
    have e3 : (m.event_type = "price_change") = True := eq_true hp
    simp only [OrderBookFeed.process_message, e1, e2, e3, if_false, if_true, hf, hb, ha]
    apply if_neg
    rintro ⟨h1, h2, h3⟩
    rcases hbad with h | h | h <;> linarith

/-- Witness for C8 (amended): a foreign `book` update, a foreign
`price_change` update and an out-of-bounds `price_change` update all
leave the initial state unchanged. -/
theorem C8_frame_witness :
    OrderBookFeed.process_message obCfgX OrderBookFeed.OBState.init obMsgForeignBook
      = OrderBookFeed.OBState.init
    ∧ OrderBookFeed.process_message obCfgX OrderBookFeed.OBState.init obMsgPCForeign
      = OrderBookFeed.OBState.init
    ∧ OrderBookFeed.process_message obCfgX OrderBookFeed.OBState.init obMsgPCBad
      = OrderBookFeed.OBState.init := by
  refine ⟨(C8_frame obCfgX _ obMsgForeignBook).1 rfl (by decide),
          (C8_frame obCfgX _ obMsgPCForeign).2.1 rfl ?_,
          (C8_frame obCfgX _ obMsgPCBad).2.2 rfl
            { asset_id := "Y", best_bid := .val (1/2), best_ask := .val 3 } (1/2) 3
            rfl rfl rfl (Or.inl (by norm_num))⟩
  intro pc hpc
  simp only [obMsgPCForeign, List.mem_singleton] at hpc
  subst hpc
  exact ⟨by decide, by decide⟩


/-- Clamped doubling: doubling an already-clamped backoff and re-clamping
equals clamping the unclamped double. -/
theorem clamp_double (a M : ℚ) (ha : 0 ≤ a) (hM : 0 ≤ M) :
    min (min a M * 2) M = min (a * 2) M := by
  rcases le_total a M with h | h
  · rw [min_eq_left h]
  · rw [min_eq_right h, min_eq_right (by linarith), min_eq_right (by linarith)]

/-- The clamped-doubling delay sequence is monotonically non-decreasing. -/
theorem delays_pairwise (base M : ℚ) (hbase : 0 ≤ base) (n : ℕ) :
    ((List.range n).map (fun k => min (base * 2 ^ k) M)).Pairwise (· ≤ ·) := by
  rw [List.pairwise_map]
  exact (List.pairwise_lt_range n).imp
    (fun hab => min_le_min
      (mul_le_mul_of_nonneg_left (pow_le_pow_right one_le_two hab.le) hbase) le_rfl)

/-- Delays emitted by the ticker feed's reconnect loop: starting from a
backoff of `min(base·2^j, max)`, with every message failing to parse, the
k-th connection failure sleeps `min(base·2^(j+k), max)`. -/
theorem binance_run_delays (evs : List (FeedEv BinanceFeed.BinanceMsg)) :
    ∀ (st : BinanceFeed.BinanceState) (j : ℕ),
      st.backoff_sec = min (BinanceFeed.BACKOFF_BASE_SEC * 2 ^ j) BinanceFeed.BACKOFF_MAX_SEC →
      (∀ m, FeedEv.msg m ∈ evs → m = BinanceFeed.BinanceMsg.parseFail) →
      (BinanceFeed.run_loop st evs).2
        = (List.range (countConnFails evs)).map
            (fun k => min (BinanceFeed.BACKOFF_BASE_SEC * 2 ^ (j + k))
              BinanceFeed.BACKOFF_MAX_SEC) := by
  induction evs with
  | nil => intro st j hst hmsg; simp [BinanceFeed.run_loop, countConnFails]
  | cons ev evs ih =>
    intro st j hst hmsg
    cases ev with
    | connFail =>
      have hb1 : min (st.backoff_sec * BinanceFeed.BACKOFF_MULTIPLIER) BinanceFeed.BACKOFF_MAX_SEC
          = min (BinanceFeed.BACKOFF_BASE_SEC * 2 ^ (j + 1)) BinanceFeed.BACKOFF_MAX_SEC := by
        rw [hst]
        unfold BinanceFeed.BACKOFF_BASE_SEC BinanceFeed.BACKOFF_MAX_SEC BinanceFeed.BACKOFF_MULTIPLIER
        rw [clamp_double _ _ (by positivity) (by norm_num)]
        ring_nf
      have htail := ih ({ st with backoff_sec := min (st.backoff_sec * BinanceFeed.BACKOFF_MULTIPLIER) BinanceFeed.BACKOFF_MAX_SEC }) (j + 1) hb1 (fun m hm => hmsg m (List.mem_cons_of_mem _ hm))
      have hcount : countConnFails (FeedEv.connFail (α := BinanceFeed.BinanceMsg) :: evs)
          = countConnFails evs + 1 := by
        simp [countConnFails, List.countP_cons]
      show min st.backoff_sec BinanceFeed.BACKOFF_MAX_SEC ::
          (BinanceFeed.run_loop _ evs).2 = _
      rw [htail, hcount, List.range_succ_eq_map, List.map_cons, List.map_map]
      congr 1
      · rw [hst, min_assoc, min_self, Nat.add_zero]
      · apply List.map_congr_left
        intro k _
        simp only [Function.comp_apply]
        have : j + 1 + k = j + (k + 1) := by omega
        rw [this]
    | msg m =>
      have hm := hmsg m (List.mem_cons_self _ _)
      subst hm
      have hcount : countConnFails (FeedEv.msg BinanceFeed.BinanceMsg.parseFail :: evs)
          = countConnFails evs := by
        simp [countConnFails, List.countP_cons]
      show (BinanceFeed.run_loop st evs).2 = _
      rw [hcount]
      exact ih st j hst (fun m hm => hmsg m (List.mem_cons_of_mem _ hm))

/-- Delays emitted by the order-book feed's reconnect loop, analogously. -/
theorem ob_run_delays (cfg : OrderBookFeed.OBCfg) (evs : List (FeedEv OrderBookFeed.OBRaw)) :
    ∀ (st : OrderBookFeed.OBState) (j : ℕ),
      st.backoff = min (OrderBookFeed.BACKOFF_BASE * 2 ^ j) OrderBookFeed.BACKOFF_MAX →
      (∀ m, FeedEv.msg m ∈ evs → m = OrderBookFeed.OBRaw.parseFail) →
      (OrderBookFeed.run_loop cfg st evs).2
        = (List.range (countConnFails evs)).map
            (fun k => min (OrderBookFeed.BACKOFF_BASE * 2 ^ (j + k))
              OrderBookFeed.BACKOFF_MAX) := by
  induction evs with
  | nil => intro st j hst hmsg; simp [OrderBookFeed.run_loop, countConnFails]
  | cons ev evs ih =>
    intro st j hst hmsg
    cases ev with
    | connFail =>
      have hb1 : min (st.backoff * OrderBookFeed.BACKOFF_MULT) OrderBookFeed.BACKOFF_MAX
          = min (OrderBookFeed.BACKOFF_BASE * 2 ^ (j + 1)) OrderBookFeed.BACKOFF_MAX := by
        rw [hst]
        unfold OrderBookFeed.BACKOFF_BASE OrderBookFeed.BACKOFF_MAX OrderBookFeed.BACKOFF_MULT
        rw [clamp_double _ _ (by positivity) (by norm_num)]
        ring_nf
      have htail := ih ({ st with backoff := min (st.backoff * OrderBookFeed.BACKOFF_MULT) OrderBookFeed.BACKOFF_MAX }) (j + 1) hb1 (fun m hm => hmsg m (List.mem_cons_of_mem _ hm))
      have hcount : countConnFails (FeedEv.connFail (α := OrderBookFeed.OBRaw) :: evs)
          = countConnFails evs + 1 := by
        simp [countConnFails, List.countP_cons]
      show min st.backoff OrderBookFeed.BACKOFF_MAX ::
          (OrderBookFeed.run_loop _ _ evs).2 = _
      rw [htail, hcount, List.range_succ_eq_map, List.map_cons, List.map_map]
      congr 1
      · rw [hst, min_assoc, min_self, Nat.add_zero]
      · apply List.map_congr_left
        intro k _
        simp only [Function.comp_apply]
        have : j + 1 + k = j + (k + 1) := by omega
        rw [this]
    | msg m =>
      have hm := hmsg m (List.mem_cons_self _ _)
      subst hm
      have hcount : countConnFails (FeedEv.msg OrderBookFeed.OBRaw.parseFail :: evs)
          = countConnFails evs := by
        simp [countConnFails, List.countP_cons]
      show (OrderBookFeed.run_loop cfg st evs).2 = _
      rw [hcount]
      exact ih st j hst (fun m hm => hmsg m (List.mem_cons_of_mem _ hm))

/-- Every `_process_message` call either leaves the state unchanged or
goes through `_update_book`. -/
theorem process_message_cases (cfg : OrderBookFeed.OBCfg) (st : OrderBookFeed.OBState)
    (m : OrderBookFeed.OBMsg) :
    OrderBookFeed.process_message cfg st m = st ∨
      ∃ b a, OrderBookFeed.process_message cfg st m = OrderBookFeed.update_book st b a := by
  unfold OrderBookFeed.process_message
  split_ifs
  all_goals try exact Or.inl rfl
  · rcases hb : m.best_bid with _ | b <;> rcases ha : m.best_ask with _ | a <;>
      first
        | exact Or.inr ⟨_, _, rfl⟩
        | exact Or.inl rfl
  · rcases hb : m.bids.head? with _ | b <;> rcases ha : m.asks.head? with _ | a <;>
      first
        | exact Or.inr ⟨_, _, rfl⟩
        | exact Or.inl rfl
  · rcases hf : List.find? (fun pc => decide (pc.asset_id = cfg.yes_token_id)) m.price_changes
        with _ | pc <;> simp only [hf]
    · exact Or.inl trivial
    · split
      · split_ifs
        · exact Or.inr ⟨_, _, rfl⟩
        · exact Or.inl rfl
      · exact Or.inl rfl

/-- A `book` update for a token other than the subscribed yes token is
ignored. -/
theorem process_book_foreign (cfg : OrderBookFeed.OBCfg) (st : OrderBookFeed.OBState)
    (m : OrderBookFeed.OBMsg) (hb : m.event_type = "book")
    (hy : m.asset_id ≠ cfg.yes_token_id) :
    OrderBookFeed.process_message cfg st m = st := by
  simp [OrderBookFeed.process_message, hb, hy]

/-- C4 (amended): for both streaming feeds, starting from the base
backoff, after n consecutive connection failures with no intervening
successfully parsed message the delay slept before the k-th reconnect is
the base doubled per prior failure clamped at the ceiling
(`min(base·2^k, ceiling)`), and the delay sequence is monotonically
non-decreasing; and the stored backoff resets to the base value on the
first parsed message the feed accepts — for the ticker feed one carrying
a positive price, for the order-book feed one that is applied to the book
(any message that changes the feed state resets the backoff). -/
theorem C4_backoff :
    (∀ (evs : List (FeedEv BinanceFeed.BinanceMsg)) (st : BinanceFeed.BinanceState),
        st.backoff_sec = BinanceFeed.BACKOFF_BASE_SEC →
        (∀ m, FeedEv.msg m ∈ evs → m = BinanceFeed.BinanceMsg.parseFail) →
        (BinanceFeed.run_loop st evs).2
            = (List.range (countConnFails evs)).map
                (fun k => min (BinanceFeed.BACKOFF_BASE_SEC * 2 ^ k) BinanceFeed.BACKOFF_MAX_SEC)
          ∧ (BinanceFeed.run_loop st evs).2.Pairwise (· ≤ ·))
    ∧ (∀ (cfg : OrderBookFeed.OBCfg) (evs : List (FeedEv OrderBookFeed.OBRaw))
          (st : OrderBookFeed.OBState),
        st.backoff = OrderBookFeed.BACKOFF_BASE →
        (∀ m, FeedEv.msg m ∈ evs → m = OrderBookFeed.OBRaw.parseFail) →
        (OrderBookFeed.run_loop cfg st evs).2
            = (List.range (countConnFails evs)).map
                (fun k => min (OrderBookFeed.BACKOFF_BASE * 2 ^ k) OrderBookFeed.BACKOFF_MAX)
          ∧ (OrderBookFeed.run_loop cfg st evs).2.Pairwise (· ≤ ·))
    ∧ (∀ (st : BinanceFeed.BinanceState) (m : BinanceFeed.BinanceMsg),
        BinanceFeed.on_message st m ≠ st →
        (BinanceFeed.on_message st m).backoff_sec = BinanceFeed.BACKOFF_BASE_SEC)
    ∧ (∀ (cfg : OrderBookFeed.OBCfg) (st : OrderBookFeed.OBState) (m : OrderBookFeed.OBMsg),
        OrderBookFeed.process_message cfg st m ≠ st →
        (OrderBookFeed.process_message cfg st m).backoff = OrderBookFeed.BACKOFF_BASE) := by
  refine ⟨fun evs st hst hmsg => ?_, fun cfg evs st hst hmsg => ?_,
    fun st m h => ?_, fun cfg st m h => ?_⟩
  · have hst' : st.backoff_sec
        = min (BinanceFeed.BACKOFF_BASE_SEC * 2 ^ 0) BinanceFeed.BACKOFF_MAX_SEC := by
      rw [hst]; norm_num [BinanceFeed.BACKOFF_BASE_SEC, BinanceFeed.BACKOFF_MAX_SEC]
    have h := binance_run_delays evs st 0 hst' hmsg
    simp only [Nat.zero_add] at h
    refine ⟨h, ?_⟩
    rw [h]
    exact delays_pairwise _ _ (by norm_num [BinanceFeed.BACKOFF_BASE_SEC]) _
  · have hst' : st.backoff
        = min (OrderBookFeed.BACKOFF_BASE * 2 ^ 0) OrderBookFeed.BACKOFF_MAX := by
      rw [hst]; norm_num [OrderBookFeed.BACKOFF_BASE, OrderBookFeed.BACKOFF_MAX]
    have h := ob_run_delays cfg evs st 0 hst' hmsg
    simp only [Nat.zero_add] at h
    refine ⟨h, ?_⟩
    rw [h]
    exact delays_pairwise _ _ (by norm_num [OrderBookFeed.BACKOFF_BASE]) _
  · cases m with
    | parseFail => exact absurd rfl h
    | tick c =>
      by_cases hc : 0 < c
      · simp [BinanceFeed.on_message, hc]
      · simp [BinanceFeed.on_message, hc] at h
  · rcases process_message_cases cfg st m with he | ⟨b, a, he⟩
    · exact absurd he h
    · rw [he]; rfl

/-- Counterexample to C4: after one connection failure the stored
backoff is 2; a subsequent successfully parsed message (a well-formed
`book` object for a token the feed ignores) does NOT reset it to the base
value 1 — only an applied book update would. -/
theorem C4_backoff_cex :
    (OrderBookFeed.run_loop obCfgX OrderBookFeed.OBState.init obEvsCex).1.backoff = 2
    ∧ OrderBookFeed.BACKOFF_BASE = 1 := by
  constructor
  · show (OrderBookFeed.process_message obCfgX
      ({ OrderBookFeed.OBState.init with backoff := min (OrderBookFeed.OBState.init.backoff * OrderBookFeed.BACKOFF_MULT) OrderBookFeed.BACKOFF_MAX }) obMsgForeignBook).backoff = 2
    rw [process_book_foreign _ _ _ rfl (by decide)]
    show min (OrderBookFeed.BACKOFF_BASE * OrderBookFeed.BACKOFF_MULT) OrderBookFeed.BACKOFF_MAX = 2
    norm_num [OrderBookFeed.BACKOFF_BASE, OrderBookFeed.BACKOFF_MULT, OrderBookFeed.BACKOFF_MAX]
  · rfl

/-- Witness for C4 (amended): a concrete run with three connection
failures and one unparsed message yields the delays [1, 2, 4]; a positive
tick and an applied best-bid-ask update each reset the backoff. -/
theorem C4_backoff_witness :
    (BinanceFeed.run_loop BinanceFeed.BinanceState.init
        [FeedEv.connFail, FeedEv.msg BinanceFeed.BinanceMsg.parseFail,
         FeedEv.connFail, FeedEv.connFail]).2
      = (List.range 3).map
          (fun k => min (BinanceFeed.BACKOFF_BASE_SEC * 2 ^ k) BinanceFeed.BACKOFF_MAX_SEC)
    ∧ (BinanceFeed.on_message BinanceFeed.BinanceState.init
        (BinanceFeed.BinanceMsg.tick 5)).backoff_sec = BinanceFeed.BACKOFF_BASE_SEC
    ∧ (OrderBookFeed.process_message obCfgX OrderBookFeed.OBState.init
        obMsgForeignBBA).backoff = OrderBookFeed.BACKOFF_BASE := by
  refine ⟨(C4_backoff.1 _ _ rfl ?_).1, C4_backoff.2.2.1 _ _ ?_, C4_backoff.2.2.2 _ _ _ ?_⟩
  · intro m hm
    simpa using hm
  · intro he
    have := congrArg BinanceFeed.BinanceState.price he
    simp [BinanceFeed.on_message, BinanceFeed.BinanceState.init] at this
  · intro he
    have := congrArg OrderBookFeed.OBState.best_bid he
    simp [OrderBookFeed.process_message, obMsgForeignBBA, obCfgX,
      OrderBookFeed.update_book, OrderBookFeed.OBState.init] at this

/-- Worked spec example of the symmetrical market-making variant:
mid 0.52 and spread 0.03 give a yes bid of 0.490 and a no bid of 0.450,
both in range, so two intents are emitted when both sides are
permitted. -/
theorem mm_quotes_example :
    MarketMaking.mm_quotes (52/100) (3/100) 5 true true
      = [{ outcome := "Yes", price := 49/100, size := 5 },
         { outcome := "No", price := 45/100, size := 5 }] := by
  have e1 : pyRound ((49:ℚ)/100) 3 = 49/100 := by norm_num [pyRound, roundHalfEven]
  have e2 : pyRound ((9:ℚ)/20) 3 = 9/20 := by norm_num [pyRound, roundHalfEven]
  unfold MarketMaking.mm_quotes
  rw [if_neg (by norm_num)]
  norm_num [e1, e2]

/-- C10: the symmetrical market-making variant, on a mid strictly between
0 and 1, emits at most two buy intents; every emitted intent is the
outcome-A intent at `round(mid − spread, 3)` or the outcome-B intent at
`round((1 − mid) − spread, 3)`, each of the uniform size; a side's intent
is emitted exactly when that side is flag-permitted, its price lies
within [0.01, 0.99] and the size is at least 1; and mid 0.52 with spread
0.03 yields the two intents (0.490, size) and (0.450, size) when both
sides are permitted. -/
theorem C10_mm_quotes (mid spread size : ℚ) (cy cn : Bool)
    (h0 : 0 < mid) (h1 : mid < 1) :
    (MarketMaking.mm_quotes mid spread size cy cn).length ≤ 2
    ∧ (∀ q ∈ MarketMaking.mm_quotes mid spread size cy cn,
        q = { outcome := "Yes", price := pyRound (mid - spread) 3, size := size }
        ∨ q = { outcome := "No", price := pyRound ((1 - mid) - spread) 3, size := size })
    ∧ (({ outcome := "Yes", price := pyRound (mid - spread) 3, size := size }
          : MarketMaking.QuoteIntent) ∈ MarketMaking.mm_quotes mid spread size cy cn ↔
        cy = true ∧ 1/100 ≤ pyRound (mid - spread) 3
          ∧ pyRound (mid - spread) 3 ≤ 99/100 ∧ 1 ≤ size)
    ∧ (({ outcome := "No", price := pyRound ((1 - mid) - spread) 3, size := size }
          : MarketMaking.QuoteIntent) ∈ MarketMaking.mm_quotes mid spread size cy cn ↔
        cn = true ∧ 1/100 ≤ pyRound ((1 - mid) - spread) 3
          ∧ pyRound ((1 - mid) - spread) 3 ≤ 99/100 ∧ 1 ≤ size)
    ∧ MarketMaking.mm_quotes (52/100) (3/100) 5 true true
        = [{ outcome := "Yes", price := 49/100, size := 5 },
           { outcome := "No", price := 45/100, size := 5 }] := by
  have hguard : ¬(mid ≤ 0 ∨ 1 ≤ mid) := by rintro (h | h) <;> linarith
  refine ⟨?_, ?_, ?_, ?_, mm_quotes_example⟩ <;>
    (unfold MarketMaking.mm_quotes
     rw [if_neg hguard]
     dsimp only
     split_ifs with hY hN hN <;>
       simp_all [MarketMaking.QuoteIntent.mk.injEq])

/-- Witness for C10: the main conjuncts applied at the worked example
inputs. -/
theorem C10_mm_quotes_witness :
    (MarketMaking.mm_quotes (52/100) (3/100) 5 true true).length ≤ 2
    ∧ (({ outcome := "Yes", price := pyRound ((52:ℚ)/100 - 3/100) 3, size := 5 }
          : MarketMaking.QuoteIntent) ∈ MarketMaking.mm_quotes (52/100) (3/100) 5 true true ↔
        true = true ∧ 1/100 ≤ pyRound ((52:ℚ)/100 - 3/100) 3
          ∧ pyRound ((52:ℚ)/100 - 3/100) 3 ≤ 99/100 ∧ (1:ℚ) ≤ 5) := by
  have h := C10_mm_quotes (52/100) (3/100) 5 true true (by norm_num) (by norm_num)
  exact ⟨h.1, h.2.2.1⟩
